import Mathlib

/-!
Shallow embedding of `src/main.py`, a FastAPI + SQLModel school administration
backend backed by a single SQLite store.

Modelling conventions:
* The SQLite store is a `Store` record of row lists plus one autoincrement
  counter per table (counters start at 1, matching SQLite rowids).
* Surrogate primary keys are `Optional[int]` in the source but every committed
  row has its key populated (by `session.add` + `commit` + `refresh`), so
  stored rows carry `id : Nat`; inserting assigns the table's next counter.
* `date` values are modelled as `Nat` (day numbers); `date.today()` becomes an
  explicit `today : Nat` parameter of the handler.  `float` columns (`amount`,
  `marks_obtained`, `max_marks`) are modelled as `Int`: the source only stores
  and copies them, never computes with them.
* Request bodies that the source types as full table models (`Issue`,
  `ExamResult`, `ExamFee`) are modelled without the `id` column: a request
  carrying a fresh explicit id commits the same row as the store-assigned one,
  and a clashing id aborts on the primary-key constraint with no committed
  write, which is covered by the error outcomes below.
* Each mutating handler returns `Outcome ρ × Store`: `Outcome.ok` with the
  serialized response on the committed path, `Outcome.httpError status detail`
  for a `raise HTTPException(...)`, and `Outcome.crash` for an unhandled
  Python exception (e.g. `AttributeError` on `None`, or an IntegrityError
  raised at flush time).  A raise or crash happens before `session.commit()`,
  so the session is rolled back and those branches return the input store.
-/

/-- Outcome of one HTTP request handler. -/
inductive Outcome (ρ : Type) where
  | ok (r : ρ)
  | httpError (status : Nat) (detail : String)
  | crash
deriving Repr, DecidableEq

/-- Holds exactly on the committed (2xx) path. -/
def Outcome.isOk {ρ : Type} : Outcome ρ → Bool
  | .ok _ => true
  | _ => false

/-- Request body of `POST /students/` and `PUT /students/...` (class `StudentBase`). -/
structure StudentBase where
  name : String
  contact_number : String
  dob : Nat
deriving Repr, DecidableEq

/-- A committed `student` row (class `Student`). -/
structure Student where
  id : Nat
  name : String
  contact_number : String
  dob : Nat
deriving Repr, DecidableEq

/-- Request body for staff endpoints (class `StaffBase`). -/
structure StaffBase where
  name : String
  contact_number : String
  dob : Nat
deriving Repr, DecidableEq

/-- A committed `staff` row (class `Staff`). -/
structure Staff where
  id : Nat
  name : String
  contact_number : String
  dob : Nat
deriving Repr, DecidableEq

/-- Request body of `POST /classrooms/` (class `ClassroomBase`). -/
structure ClassroomBase where
  class_name : String
  std : String
  sec : String
  class_teacher : String
deriving Repr, DecidableEq

/-- A committed `classroom` row (class `Classroom`). -/
structure Classroom where
  id : Nat
  class_name : String
  std : String
  sec : String
  class_teacher : String
deriving Repr, DecidableEq

/-- Request body of `POST /books/` (class `BookBase`). -/
structure BookBase where
  title : String
  author : String
  isbn : String
  total_copies : Int
deriving Repr, DecidableEq

/-- A committed `book` row (class `Book`). -/
structure Book where
  id : Nat
  title : String
  author : String
  isbn : String
  total_copies : Int
  available_copies : Int
deriving Repr, DecidableEq

/-- Request body of `POST /issues/`: the source takes a full `Issue` model, so
the caller supplies `issue_date` (defaulted to today by `default_factory` when
absent) and may supply a non-null `return_date`. -/
structure IssueIn where
  student_id : Nat
  book_id : Nat
  issue_date : Nat
  return_date : Option Nat
deriving Repr, DecidableEq

/-- A committed `issue` row (class `Issue`). -/
structure Issue where
  id : Nat
  student_id : Nat
  book_id : Nat
  issue_date : Nat
  return_date : Option Nat
deriving Repr, DecidableEq

/-- Request body of `POST /results/` (the source takes a full `ExamResult`). -/
structure ExamResultIn where
  student_id : Nat
  exam_name : String
  marks_obtained : Int
  max_marks : Int
deriving Repr, DecidableEq

/-- A committed `examresult` row (class `ExamResult`). -/
structure ExamResult where
  id : Nat
  student_id : Nat
  exam_name : String
  marks_obtained : Int
  max_marks : Int
deriving Repr, DecidableEq

/-- Request body of `POST /fees/` (the source takes a full `ExamFee`;
`paid` defaults to `False` at parse time). -/
structure ExamFeeIn where
  student_id : Nat
  amount : Int
  due_date : Nat
  paid : Bool
deriving Repr, DecidableEq

/-- A committed `examfee` row (class `ExamFee`). -/
structure ExamFee where
  id : Nat
  student_id : Nat
  amount : Int
  due_date : Nat
  paid : Bool
deriving Repr, DecidableEq

/-- Body of `PUT /fees/...` under `dict(exclude_unset=True)`: `none` means the
field was absent from the request JSON and is skipped by the merge loop;
`some v` means it was supplied and `setattr` overwrites it.  The `id` primary
key column is not part of the modelled patches: supplying it would rewrite the
row key, a degenerate request outside every claim. -/
structure FeePatch where
  student_id : Option Nat
  amount : Option Int
  due_date : Option Nat
  paid : Option Bool
deriving Repr, DecidableEq

/-- The whole SQLite file `school.db`: one list per table plus per-table
autoincrement counters.  `roster` is the `classroomstudent` join table as
`(classroom_id, student_id)` pairs. -/
structure Store where
  students : List Student
  staffs : List Staff
  classrooms : List Classroom
  roster : List (Nat × Nat)
  books : List Book
  issues : List Issue
  results : List ExamResult
  fees : List ExamFee
  next_student_id : Nat
  next_staff_id : Nat
  next_classroom_id : Nat
  next_book_id : Nat
  next_issue_id : Nat
  next_result_id : Nat
  next_fee_id : Nat
deriving Repr, DecidableEq

/-- The freshly created database: empty tables, counters at 1. -/
def emptyStore : Store :=
  { students := [], staffs := [], classrooms := [], roster := [], books := [],
    issues := [], results := [], fees := [],
    next_student_id := 1, next_staff_id := 1, next_classroom_id := 1,
    next_book_id := 1, next_issue_id := 1, next_result_id := 1, next_fee_id := 1 }

/-- Model of `session.get(Model, i)`: primary-key lookup in a row list. -/
def findById {α : Type} (key : α → Nat) (i : Nat) (l : List α) : Option α :=
  l.find? (fun x => key x == i)

/-- Writing back a mutated ORM row: the row with the same key is replaced. -/
def updById {α : Type} (key : α → Nat) (x' : α) (l : List α) : List α :=
  l.map (fun x => if key x == key x' then x' else x)

/-- Model of `session.delete`: the row with the given key is removed. -/
def delById {α : Type} (key : α → Nat) (i : Nat) (l : List α) : List α :=
  l.filter (fun x => !(key x == i))

def findStudent (s : Store) (i : Nat) : Option Student := findById Student.id i s.students

def findStaff (s : Store) (i : Nat) : Option Staff := findById Staff.id i s.staffs

def findClassroom (s : Store) (i : Nat) : Option Classroom := findById Classroom.id i s.classrooms

def findBook (s : Store) (i : Nat) : Option Book := findById Book.id i s.books

def findIssue (s : Store) (i : Nat) : Option Issue := findById Issue.id i s.issues

def findResult (s : Store) (i : Nat) : Option ExamResult := findById ExamResult.id i s.results

def findFee (s : Store) (i : Nat) : Option ExamFee := findById ExamFee.id i s.fees

-- ---------- STUDENT CRUD ----------

/-- Handler `create_student` (`POST /students/`): insert, commit, return the row. -/
def create_student (req : StudentBase) (s : Store) : Outcome Student × Store :=
  let st : Student :=
    { id := s.next_student_id, name := req.name,
      contact_number := req.contact_number, dob := req.dob }
  (Outcome.ok st,
   { s with students := s.students ++ [st], next_student_id := s.next_student_id + 1 })

/-- Handler `get_student` (`GET /students/...`): 404 when the id is unknown. -/
def get_student (student_id : Nat) (s : Store) : Outcome Student :=
  match findStudent s student_id with
  | none => Outcome.httpError 404 "Student not found"
  | some st => Outcome.ok st

/-- Handler `update_student` (`PUT /students/...`): full replace of the base fields. -/
def update_student (student_id : Nat) (req : StudentBase) (s : Store) :
    Outcome Student × Store :=
  match findStudent s student_id with
  | none => (Outcome.httpError 404 "Student not found", s)
  | some st =>
    let st' : Student :=
      { id := st.id, name := req.name,
        contact_number := req.contact_number, dob := req.dob }
    (Outcome.ok st', { s with students := updById Student.id st' s.students })

/-- Handler `delete_student` (`DELETE /students/...`).  SQLAlchemy deletes the
`classroomstudent` association rows of the student, but the one-to-many
children (issues, results, fees) only get their non-nullable `student_id`
nulled at flush, so the flush raises an IntegrityError — an unhandled 500
with nothing committed (spec section 4.1 calls this out). -/
def delete_student (student_id : Nat) (s : Store) : Outcome Unit × Store :=
  match findStudent s student_id with
  | none => (Outcome.httpError 404 "Student not found", s)
  | some _ =>
    if s.issues.any (fun i => i.student_id == student_id)
       || s.results.any (fun r => r.student_id == student_id)
       || s.fees.any (fun f => f.student_id == student_id) then
      (Outcome.crash, s)
    else
      (Outcome.ok (),
       { s with students := delById Student.id student_id s.students,
                roster := s.roster.filter (fun pr => !(pr.2 == student_id)) })

-- ---------- STAFF CRUD ----------

/-- Handler `create_staff` (`POST /staff/`). -/
def create_staff (req : StaffBase) (s : Store) : Outcome Staff × Store :=
  let st : Staff :=
    { id := s.next_staff_id, name := req.name,
      contact_number := req.contact_number, dob := req.dob }
  (Outcome.ok st,
   { s with staffs := s.staffs ++ [st], next_staff_id := s.next_staff_id + 1 })

/-- Handler `update_staff` (`PUT /staff/...`). -/
def update_staff (staff_id : Nat) (req : StaffBase) (s : Store) :
    Outcome Staff × Store :=
  match findStaff s staff_id with
  | none => (Outcome.httpError 404 "Staff not found", s)
  | some st =>
    let st' : Staff :=
      { id := st.id, name := req.name,
        contact_number := req.contact_number, dob := req.dob }
    (Outcome.ok st', { s with staffs := updById Staff.id st' s.staffs })

/-- Handler `delete_staff` (`DELETE /staff/...`): staff has no relationships. -/
def delete_staff (staff_id : Nat) (s : Store) : Outcome Unit × Store :=
  match findStaff s staff_id with
  | none => (Outcome.httpError 404 "Staff not found", s)
  | some _ => (Outcome.ok (), { s with staffs := delById Staff.id staff_id s.staffs })

-- ---------- CLASSROOMS ----------

/-- Handler `create_classroom` (`POST /classrooms/`). -/
def create_classroom (req : ClassroomBase) (s : Store) : Outcome Classroom × Store :=
  let c : Classroom :=
    { id := s.next_classroom_id, class_name := req.class_name, std := req.std,
      sec := req.sec, class_teacher := req.class_teacher }
  (Outcome.ok c,
   { s with classrooms := s.classrooms ++ [c],
            next_classroom_id := s.next_classroom_id + 1 })

/-- Handler `add_student_to_class` (`POST /classrooms/.../add_student/...`): 404 when
either id is unknown (checked first), 400 when the membership already exists,
otherwise append the join row. -/
def add_student_to_class (class_id student_id : Nat) (s : Store) :
    Outcome Classroom × Store :=
  match findClassroom s class_id, findStudent s student_id with
  | some c, some _ =>
    if (class_id, student_id) ∈ s.roster then
      (Outcome.httpError 400 "Student already in class", s)
    else
      (Outcome.ok c, { s with roster := s.roster ++ [(class_id, student_id)] })
  | _, _ => (Outcome.httpError 404 "Class or Student not found", s)

/-- Handler `remove_student_from_class` (`POST /classrooms/.../remove_student/...`):
404 when either id is unknown (checked first), 400 when the student is not a
member, otherwise remove the join row. -/
def remove_student_from_class (class_id student_id : Nat) (s : Store) :
    Outcome Classroom × Store :=
  match findClassroom s class_id, findStudent s student_id with
  | some c, some _ =>
    if (class_id, student_id) ∈ s.roster then
      (Outcome.ok c, { s with roster := s.roster.erase (class_id, student_id) })
    else
      (Outcome.httpError 400 "Student not in class", s)
  | _, _ => (Outcome.httpError 404 "Class or Student not found", s)

-- ---------- LIBRARY ----------

/-- Handler `add_book` (`POST /books/`): `available_copies` is initialized to the
caller-supplied `total_copies` (no validation of its sign). -/
def add_book (req : BookBase) (s : Store) : Outcome Book × Store :=
  let b : Book :=
    { id := s.next_book_id, title := req.title, author := req.author,
      isbn := req.isbn, total_copies := req.total_copies,
      available_copies := req.total_copies }
  (Outcome.ok b,
   { s with books := s.books ++ [b], next_book_id := s.next_book_id + 1 })

/-- Handler `issue_book` (`POST /issues/`): one 400 covers both a missing book and
`available_copies < 1`; the caller-supplied `student_id` is never checked,
and the caller-supplied `issue_date` / `return_date` are persisted verbatim. -/
def issue_book (req : IssueIn) (s : Store) : Outcome Issue × Store :=
  match findBook s req.book_id with
  | none => (Outcome.httpError 400 "Book unavailable", s)
  | some b =>
    if b.available_copies < 1 then
      (Outcome.httpError 400 "Book unavailable", s)
    else
      let b' : Book := { b with available_copies := b.available_copies - 1 }
      let iss : Issue :=
        { id := s.next_issue_id, student_id := req.student_id,
          book_id := req.book_id, issue_date := req.issue_date,
          return_date := req.return_date }
      (Outcome.ok iss,
       { s with books := updById Book.id b' s.books,
                issues := s.issues ++ [iss],
                next_issue_id := s.next_issue_id + 1 })

/-- Handler `return_book` (`POST /returns/...`): 400 when the issue is missing or its
`return_date` is already set (a `date` is always truthy); otherwise the book is
looked up with no `None` check — a missing book is an `AttributeError`
(`Outcome.crash`, nothing committed).  On success the issue's `return_date`
becomes today and the book's `available_copies` is incremented. -/
def return_book (issue_id : Nat) (today : Nat) (s : Store) : Outcome Issue × Store :=
  match findIssue s issue_id with
  | none => (Outcome.httpError 400 "Invalid return", s)
  | some iss =>
    match iss.return_date with
    | some _ => (Outcome.httpError 400 "Invalid return", s)
    | none =>
      let iss' : Issue := { iss with return_date := some today }
      match findBook s iss.book_id with
      | none => (Outcome.crash, s)
      | some b =>
        let b' : Book := { b with available_copies := b.available_copies + 1 }
        (Outcome.ok iss',
         { s with issues := updById Issue.id iss' s.issues,
                  books := updById Book.id b' s.books })

-- ---------- EXAM RESULTS ----------

/-- Handler `add_result` (`POST /results/`): no existence check on `student_id`, no
bounds check on marks — the row is inserted as-is (SQLite does not enforce
foreign keys by default). -/
def add_result (req : ExamResultIn) (s : Store) : Outcome ExamResult × Store :=
  let r : ExamResult :=
    { id := s.next_result_id, student_id := req.student_id,
      exam_name := req.exam_name, marks_obtained := req.marks_obtained,
      max_marks := req.max_marks }
  (Outcome.ok r,
   { s with results := s.results ++ [r], next_result_id := s.next_result_id + 1 })

/-- Handler `delete_result` (`DELETE /results/...`). -/
def delete_result (result_id : Nat) (s : Store) : Outcome Unit × Store :=
  match findResult s result_id with
  | none => (Outcome.httpError 404 "Result not found", s)
  | some _ => (Outcome.ok (), { s with results := delById ExamResult.id result_id s.results })

-- ---------- EXAM FEES ----------

/-- Handler `add_fee` (`POST /fees/`): no existence check on `student_id`; the row is
inserted as-is. -/
def add_fee (req : ExamFeeIn) (s : Store) : Outcome ExamFee × Store :=
  let f : ExamFee :=
    { id := s.next_fee_id, student_id := req.student_id, amount := req.amount,
      due_date := req.due_date, paid := req.paid }
  (Outcome.ok f,
   { s with fees := s.fees ++ [f], next_fee_id := s.next_fee_id + 1 })

/-- The `setattr` loop of `update_fee` over `fee.dict(exclude_unset=True)`:
each supplied field overwrites, each absent field is untouched. -/
def applyFeePatch (f : ExamFee) (p : FeePatch) : ExamFee :=
  { id := f.id,
    student_id := p.student_id.getD f.student_id,
    amount := p.amount.getD f.amount,
    due_date := p.due_date.getD f.due_date,
    paid := p.paid.getD f.paid }

/-- Handler `update_fee` (`PUT /fees/...`): 404 when the id is unknown, otherwise a
partial merge of the supplied fields. -/
def update_fee (fee_id : Nat) (p : FeePatch) (s : Store) : Outcome ExamFee × Store :=
  match findFee s fee_id with
  | none => (Outcome.httpError 404 "Fee not found", s)
  | some f =>
    let f' := applyFeePatch f p
    (Outcome.ok f', { s with fees := updById ExamFee.id f' s.fees })

/-- Handler `delete_fee` (`DELETE /fees/...`). -/
def delete_fee (fee_id : Nat) (s : Store) : Outcome Unit × Store :=
  match findFee s fee_id with
  | none => (Outcome.httpError 404 "Fee not found", s)
  | some _ => (Outcome.ok (), { s with fees := delById ExamFee.id fee_id s.fees })

-- ---------- OPERATIONS AND REACHABILITY ----------

/-- One mutating HTTP request (the read-only GET handlers do not change the
store).  `returnBook` carries the day `date.today()` evaluates to. -/
inductive Op where
  | createStudent (req : StudentBase)
  | updateStudent (student_id : Nat) (req : StudentBase)
  | deleteStudent (student_id : Nat)
  | createStaff (req : StaffBase)
  | updateStaff (staff_id : Nat) (req : StaffBase)
  | deleteStaff (staff_id : Nat)
  | createClassroom (req : ClassroomBase)
  | addStudentToClass (class_id student_id : Nat)
  | removeStudentFromClass (class_id student_id : Nat)
  | addBook (req : BookBase)
  | issueBook (req : IssueIn)
  | returnBook (issue_id today : Nat)
  | addResult (req : ExamResultIn)
  | deleteResult (result_id : Nat)
  | addFee (req : ExamFeeIn)
  | updateFee (fee_id : Nat) (p : FeePatch)
  | deleteFee (fee_id : Nat)
deriving Repr, DecidableEq

/-- The store after serving one request (on a raise or crash the session is
rolled back, so the handler already returns the unchanged store). -/
def Op.step : Op → Store → Store
  | .createStudent req, s => (create_student req s).2
  | .updateStudent i req, s => (update_student i req s).2
  | .deleteStudent i, s => (delete_student i s).2
  | .createStaff req, s => (create_staff req s).2
  | .updateStaff i req, s => (update_staff i req s).2
  | .deleteStaff i, s => (delete_staff i s).2
  | .createClassroom req, s => (create_classroom req s).2
  | .addStudentToClass c i, s => (add_student_to_class c i s).2
  | .removeStudentFromClass c i, s => (remove_student_from_class c i s).2
  | .addBook req, s => (add_book req s).2
  | .issueBook req, s => (issue_book req s).2
  | .returnBook i d, s => (return_book i d s).2
  | .addResult req, s => (add_result req s).2
  | .deleteResult i, s => (delete_result i s).2
  | .addFee req, s => (add_fee req s).2
  | .updateFee i p, s => (update_fee i p s).2
  | .deleteFee i, s => (delete_fee i s).2

/-- Serve a sequence of requests starting from `s`. -/
def applySteps (ops : List Op) (s : Store) : Store :=
  ops.foldl (fun t o => o.step t) s

/-- A store reachable from the fresh database by some request sequence. -/
def Reachable (s : Store) : Prop :=
  ∃ ops : List Op, applySteps ops emptyStore = s

/-- Number of stored issues of book `bid` whose `return_date` is still null. -/
def outstanding (issues : List Issue) (bid : Nat) : Nat :=
  issues.countP (fun i => i.book_id == bid && i.return_date.isNone)

/-- Structural invariant maintained by every handler: primary keys stay below
their table's counter and are pairwise distinct, every stored issue references
a stored book, each book's `available_copies` plus its outstanding issues is
bounded by `total_copies`, and the roster has no duplicate pairing. -/
structure WF (s : Store) : Prop where
  student_lt : ∀ st ∈ s.students, st.id < s.next_student_id
  book_lt : ∀ b ∈ s.books, b.id < s.next_book_id
  issue_lt : ∀ i ∈ s.issues, i.id < s.next_issue_id
  book_keys : (s.books.map Book.id).Nodup
  issue_keys : (s.issues.map Issue.id).Nodup
  issue_book_ex : ∀ i ∈ s.issues, ∃ b ∈ s.books, b.id = i.book_id
  avail_bound : ∀ b ∈ s.books,
    b.available_copies + (outstanding s.issues b.id : Int) ≤ b.total_copies
  roster_nodup : s.roster.Nodup

-- ---------- LIST HELPER LEMMAS ----------

theorem findById_some {α : Type} {key : α → Nat} {i : Nat} {l : List α} {x : α}
    (h : findById key i l = some x) : x ∈ l ∧ key x = i := by
  refine ⟨List.mem_of_find?_eq_some h, ?_⟩
  have := List.find?_some h
  simpa using this

theorem findById_eq_none {α : Type} {key : α → Nat} {i : Nat} {l : List α}
    (h : ∀ x ∈ l, key x ≠ i) : findById key i l = none := by
  unfold findById
  rw [List.find?_eq_none]
  intro x hx
  simpa using h x hx

theorem findById_cons_pos {α : Type} {key : α → Nat} {i : Nat} {y : α} {t : List α}
    (hy : key y = i) : findById key i (y :: t) = some y :=
  List.find?_cons_of_pos _ (by simpa using hy)

theorem findById_cons_neg {α : Type} {key : α → Nat} {i : Nat} {y : α} {t : List α}
    (hy : key y ≠ i) : findById key i (y :: t) = findById key i t :=
  List.find?_cons_of_neg _ (by simpa using hy)

theorem updById_cons {α : Type} (key : α → Nat) (x' y : α) (t : List α) :
    updById key x' (y :: t) = (if key y = key x' then x' else y) :: updById key x' t := by
  by_cases hy : key y = key x' <;> simp [updById, hy]

theorem findById_append_new {α : Type} {key : α → Nat} {i : Nat} {l : List α} {a : α}
    (h : ∀ x ∈ l, key x ≠ i) (ha : key a = i) : findById key i (l ++ [a]) = some a := by
  unfold findById
  rw [List.find?_append]
  have hnone : l.find? (fun x => key x == i) = none := by
    rw [List.find?_eq_none]
    intro x hx
    simpa using h x hx
  rw [hnone]
  simp [ha]
theorem updById_nomatch {α : Type} {key : α → Nat} {x' : α} {l : List α}
    (h : ∀ x ∈ l, key x ≠ key x') : updById key x' l = l := by
  induction l with
  | nil => rfl
  | cons y t ih =>
    have hy : key y ≠ key x' := h y (by simp)
    have ht : ∀ x ∈ t, key x ≠ key x' := fun x hx => h x (by simp [hx])
    simp [updById] at ih ⊢
    exact ⟨by simp [hy], ih ht⟩


theorem findById_updById {α : Type} {key : α → Nat} {i : Nat} {l : List α} {x x' : α}
    (h : findById key i l = some x) (hk : key x' = key x) :
    findById key i (updById key x' l) = some x' := by
  induction l with
  | nil => simp [findById] at h
  | cons y t ih =>
    rw [updById_cons]
    by_cases hy : key y = i
    · have hx : x = y := by
        rw [findById_cons_pos hy] at h
        exact (Option.some.inj h).symm
      subst hx
      rw [if_pos hk.symm]
      exact findById_cons_pos (by rw [hk]; exact hy)
    · rw [findById_cons_neg hy] at h
      have hyx' : key y ≠ key x' := by
        rw [hk, (findById_some h).2]
        exact hy
      rw [if_neg hyx', findById_cons_neg hy]
      exact ih h

theorem findById_updById_ne {α : Type} {key : α → Nat} {i : Nat} {l : List α} {x' : α}
    (h : key x' ≠ i) : findById key i (updById key x' l) = findById key i l := by
  induction l with
  | nil => rfl
  | cons y t ih =>
    rw [updById_cons]
    by_cases hy : key y = key x'
    · have hyi : key y ≠ i := by rw [hy]; exact h
      rw [if_pos hy, findById_cons_neg h, findById_cons_neg hyi]
      exact ih
    · rw [if_neg hy]
      by_cases hyi : key y = i
      · rw [findById_cons_pos hyi, findById_cons_pos hyi]
      · rw [findById_cons_neg hyi, findById_cons_neg hyi]
        exact ih
theorem map_key_updById {α : Type} (key : α → Nat) (x' : α) (l : List α) :
    (updById key x' l).map key = l.map key := by
  induction l with
  | nil => rfl
  | cons y t ih =>
    by_cases hy : key y = key x'
    · simp [updById, List.map, hy] at ih ⊢
      exact ih
    · simp [updById, List.map, hy] at ih ⊢
      exact ih

theorem mem_updById_self {α : Type} {key : α → Nat} {l : List α} {x x' : α}
    (hx : x ∈ l) (hk : key x = key x') : x' ∈ updById key x' l := by
  have : (if key x == key x' then x' else x) ∈ updById key x' l :=
    List.mem_map_of_mem _ hx
  simpa [hk] using this


theorem countP_updById {α : Type} {key : α → Nat} {l : List α} {x x' : α}
    (p : α → Bool) (hmem : x ∈ l) (hk : key x' = key x)
    (hnd : (l.map key).Nodup) :
    (updById key x' l).countP p + (if p x then 1 else 0)
      = l.countP p + (if p x' then 1 else 0) := by
  induction l with
  | nil => simp at hmem
  | cons y t ih =>
    rw [List.map_cons, List.nodup_cons] at hnd
    rw [updById_cons]
    rcases List.mem_cons.1 hmem with rfl | hxt
    · have ht : ∀ z ∈ t, key z ≠ key x' := by
        intro z hz hzk
        apply hnd.1
        have hzx : key z = key x := hzk.trans hk
        rw [← hzx]
        exact List.mem_map_of_mem _ hz
      rw [if_pos hk.symm, updById_nomatch ht, List.countP_cons, List.countP_cons]
      omega
    · have hyx' : key y ≠ key x' := by
        intro hyk
        apply hnd.1
        rw [hyk, hk]
        exact List.mem_map_of_mem _ hxt
      rw [if_neg hyx', List.countP_cons, List.countP_cons]
      have := ih hxt hnd.2
      omega

theorem forall_updById {α : Type} {key : α → Nat} {l : List α} {x' : α} {P : α → Prop}
    (hl : ∀ x ∈ l, P x) (hx' : P x') : ∀ y ∈ updById key x' l, P y := by
  intro y hy
  rcases List.mem_map.1 hy with ⟨x, hx, rfl⟩
  by_cases hc : key x = key x'
  · simpa [hc] using hx'
  · simpa [hc] using hl x hx

theorem exists_key_updById {α : Type} {key : α → Nat} {l : List α} {x' : α} {i : Nat}
    (hex : ∃ y ∈ l, key y = i) : ∃ z ∈ updById key x' l, key z = i := by
  obtain ⟨y, hy, hyk⟩ := hex
  by_cases hc : key y = key x'
  · refine ⟨x', mem_updById_self hy hc, ?_⟩
    rw [← hc, hyk]
  · refine ⟨y, ?_, hyk⟩
    have hmem : (if key y == key x' then x' else y) ∈ updById key x' l :=
      List.mem_map_of_mem _ hy
    simpa [hc] using hmem

theorem eq_of_key_nodup {α : Type} {key : α → Nat} {l : List α}
    (hnd : (l.map key).Nodup) {x y : α} (hx : x ∈ l) (hy : y ∈ l)
    (hk : key x = key y) : x = y :=
  List.inj_on_of_nodup_map hnd hx hy hk

theorem nodup_append_singleton {α : Type} {l : List α} {a : α}
    (hl : l.Nodup) (ha : a ∉ l) : (l ++ [a]).Nodup := by
  simp [List.nodup_append, hl, ha]

/-- An empty database is well-formed. -/
theorem wf_empty : WF emptyStore := by
  constructor <;> simp [emptyStore, outstanding]

theorem wf_create_student (req : StudentBase) {s : Store} (h : WF s) :
    WF (create_student req s).2 := by
  unfold create_student
  dsimp only
  refine ⟨?_, h.book_lt, h.issue_lt, h.book_keys, h.issue_keys, h.issue_book_ex,
    h.avail_bound, h.roster_nodup⟩
  intro st hst
  rcases List.mem_append.1 hst with hst | hst
  · exact Nat.lt_trans (h.student_lt st hst) (Nat.lt_succ_self _)
  · rcases List.mem_singleton.1 hst with rfl
    exact Nat.lt_succ_self _

theorem wf_update_student (student_id : Nat) (req : StudentBase) {s : Store} (h : WF s) :
    WF (update_student student_id req s).2 := by
  unfold update_student
  cases hf : findStudent s student_id with
  | none => exact h
  | some st =>
    dsimp only
    refine ⟨?_, h.book_lt, h.issue_lt, h.book_keys, h.issue_keys, h.issue_book_ex,
      h.avail_bound, h.roster_nodup⟩
    exact forall_updById h.student_lt (h.student_lt st (findById_some hf).1)

theorem wf_delete_student (student_id : Nat) {s : Store} (h : WF s) :
    WF (delete_student student_id s).2 := by
  unfold delete_student
  cases hf : findStudent s student_id with
  | none => exact h
  | some st =>
    dsimp only
    split
    · exact h
    · refine ⟨?_, h.book_lt, h.issue_lt, h.book_keys, h.issue_keys, h.issue_book_ex,
        h.avail_bound, ?_⟩
      · intro x hx
        exact h.student_lt x (List.mem_of_mem_filter hx)
      · exact h.roster_nodup.filter _

theorem wf_create_staff (req : StaffBase) {s : Store} (h : WF s) :
    WF (create_staff req s).2 :=
  ⟨h.student_lt, h.book_lt, h.issue_lt, h.book_keys, h.issue_keys, h.issue_book_ex,
    h.avail_bound, h.roster_nodup⟩

theorem wf_update_staff (staff_id : Nat) (req : StaffBase) {s : Store} (h : WF s) :
    WF (update_staff staff_id req s).2 := by
  unfold update_staff
  cases hf : findStaff s staff_id with
  | none => exact h
  | some st =>
    exact ⟨h.student_lt, h.book_lt, h.issue_lt, h.book_keys, h.issue_keys,
      h.issue_book_ex, h.avail_bound, h.roster_nodup⟩

theorem wf_delete_staff (staff_id : Nat) {s : Store} (h : WF s) :
    WF (delete_staff staff_id s).2 := by
  unfold delete_staff
  cases hf : findStaff s staff_id with
  | none => exact h
  | some st =>
    exact ⟨h.student_lt, h.book_lt, h.issue_lt, h.book_keys, h.issue_keys,
      h.issue_book_ex, h.avail_bound, h.roster_nodup⟩

theorem wf_create_classroom (req : ClassroomBase) {s : Store} (h : WF s) :
    WF (create_classroom req s).2 :=
  ⟨h.student_lt, h.book_lt, h.issue_lt, h.book_keys, h.issue_keys, h.issue_book_ex,
    h.avail_bound, h.roster_nodup⟩

theorem wf_add_student_to_class (class_id student_id : Nat) {s : Store} (h : WF s) :
    WF (add_student_to_class class_id student_id s).2 := by
  unfold add_student_to_class
  cases hc : findClassroom s class_id with
  | none => exact h
  | some c =>
    cases hst : findStudent s student_id with
    | none => exact h
    | some st =>
      dsimp only
      split
      · exact h
      · next hmem =>
        exact ⟨h.student_lt, h.book_lt, h.issue_lt, h.book_keys, h.issue_keys,
          h.issue_book_ex, h.avail_bound, nodup_append_singleton h.roster_nodup hmem⟩

theorem wf_remove_student_from_class (class_id student_id : Nat) {s : Store} (h : WF s) :
    WF (remove_student_from_class class_id student_id s).2 := by
  unfold remove_student_from_class
  cases hc : findClassroom s class_id with
  | none => exact h
  | some c =>
    cases hst : findStudent s student_id with
    | none => exact h
    | some st =>
      dsimp only
      split
      · exact ⟨h.student_lt, h.book_lt, h.issue_lt, h.book_keys, h.issue_keys,
          h.issue_book_ex, h.avail_bound, h.roster_nodup.erase _⟩
      · exact h

theorem wf_add_book (req : BookBase) {s : Store} (h : WF s) :
    WF (add_book req s).2 := by
  unfold add_book
  dsimp only
  have hfresh : s.next_book_id ∉ s.books.map Book.id := by
    intro hmem
    rcases List.mem_map.1 hmem with ⟨x, hx, hxid⟩
    exact absurd hxid (Nat.ne_of_lt (h.book_lt x hx))
  refine ⟨h.student_lt, ?_, h.issue_lt, ?_, h.issue_keys, ?_, ?_, h.roster_nodup⟩
  · intro bb hb
    rcases List.mem_append.1 hb with hb | hb
    · exact Nat.lt_trans (h.book_lt bb hb) (Nat.lt_succ_self _)
    · rcases List.mem_singleton.1 hb with rfl
      exact Nat.lt_succ_self _
  · rw [List.map_append]
    exact nodup_append_singleton h.book_keys hfresh
  · intro i hi
    obtain ⟨b0, hb0, hb0id⟩ := h.issue_book_ex i hi
    exact ⟨b0, List.mem_append_left _ hb0, hb0id⟩
  · intro bb hb
    rcases List.mem_append.1 hb with hb | hb
    · exact h.avail_bound bb hb
    · rcases List.mem_singleton.1 hb with rfl
      have hz : outstanding s.issues s.next_book_id = 0 := by
        rw [outstanding, List.countP_eq_zero]
        intro i hi
        obtain ⟨b0, hb0, hb0id⟩ := h.issue_book_ex i hi
        have hlt := h.book_lt b0 hb0
        simp only [Bool.and_eq_true, beq_iff_eq, not_and]
        intro hc
        exact absurd (hb0id.trans hc) (Nat.ne_of_lt hlt)
      simp [hz]

theorem wf_issue_book (req : IssueIn) {s : Store} (h : WF s) :
    WF (issue_book req s).2 := by
  unfold issue_book
  cases hfb : findBook s req.book_id with
  | none => exact h
  | some b =>
    dsimp only
    split
    · exact h
    · next hav =>
      obtain ⟨hbmem, hbid⟩ := findById_some hfb
      have hifresh : s.next_issue_id ∉ s.issues.map Issue.id := by
        intro hmem
        rcases List.mem_map.1 hmem with ⟨x, hx, hxid⟩
        exact absurd hxid (Nat.ne_of_lt (h.issue_lt x hx))
      refine ⟨h.student_lt, ?_, ?_, ?_, ?_, ?_, ?_, h.roster_nodup⟩
      · exact forall_updById h.book_lt (h.book_lt b hbmem)
      · intro i hi
        rcases List.mem_append.1 hi with hi | hi
        · exact Nat.lt_trans (h.issue_lt i hi) (Nat.lt_succ_self _)
        · rcases List.mem_singleton.1 hi with rfl
          exact Nat.lt_succ_self _
      · rw [map_key_updById]
        exact h.book_keys
      · rw [List.map_append]
        exact nodup_append_singleton h.issue_keys hifresh
      · intro i hi
        rcases List.mem_append.1 hi with hi | hi
        · exact exists_key_updById (h.issue_book_ex i hi)
        · rcases List.mem_singleton.1 hi with rfl
          exact exists_key_updById ⟨b, hbmem, hbid⟩
      · intro z hz
        rcases List.mem_map.1 hz with ⟨x, hx, rfl⟩
        by_cases hc : x.id = b.id
        · have hxb : x = b := eq_of_key_nodup h.book_keys hx hbmem hc
          subst hxb
          simp only [beq_self_eq_true, if_pos]
          have hb1 := h.avail_bound x hx
          have hout : outstanding (s.issues ++
              [{ id := s.next_issue_id, student_id := req.student_id,
                 book_id := req.book_id, issue_date := req.issue_date,
                 return_date := req.return_date }]) x.id
              ≤ outstanding s.issues x.id + 1 := by
            rw [outstanding, outstanding, List.countP_append]
            have : List.countP
                (fun i : Issue => i.book_id == x.id && i.return_date.isNone)
                [{ id := s.next_issue_id, student_id := req.student_id,
                   book_id := req.book_id, issue_date := req.issue_date,
                   return_date := req.return_date }] ≤ 1 := by
              simp only [List.countP_cons, List.countP_nil]
              split <;> omega
            omega
          push_cast at hb1 hout ⊢
          omega
        · have hcc : ¬(Book.id x == Book.id b) = true := by simpa using hc
          rw [if_neg hcc]
          have hb1 := h.avail_bound x hx
          have hout : outstanding (s.issues ++
              [{ id := s.next_issue_id, student_id := req.student_id,
                 book_id := req.book_id, issue_date := req.issue_date,
                 return_date := req.return_date }]) x.id
              = outstanding s.issues x.id := by
            rw [outstanding, outstanding, List.countP_append]
            have : List.countP
                (fun i : Issue => i.book_id == x.id && i.return_date.isNone)
                [{ id := s.next_issue_id, student_id := req.student_id,
                   book_id := req.book_id, issue_date := req.issue_date,
                   return_date := req.return_date }] = 0 := by
              simp only [List.countP_cons, List.countP_nil]
              have : ¬(req.book_id = x.id) := by
                rw [← hbid]
                exact fun hb2 => hc hb2.symm
              simp [this]
            omega
          rw [hout]
          exact hb1

theorem wf_return_book (issue_id today : Nat) {s : Store} (h : WF s) :
    WF (return_book issue_id today s).2 := by
  unfold return_book
  cases hfi : findIssue s issue_id with
  | none => exact h
  | some iss =>
    dsimp only
    cases hrd : iss.return_date with
    | some d => exact h
    | none =>
      dsimp only
      cases hfb : findBook s iss.book_id with
      | none => exact h
      | some b =>
        dsimp only
        obtain ⟨himem, hiid⟩ := findById_some hfi
        obtain ⟨hbmem, hbid⟩ := findById_some hfb
        refine ⟨h.student_lt, ?_, ?_, ?_, ?_, ?_, ?_, h.roster_nodup⟩
        · exact forall_updById h.book_lt (h.book_lt b hbmem)
        · exact forall_updById h.issue_lt (h.issue_lt iss himem)
        · rw [map_key_updById]
          exact h.book_keys
        · rw [map_key_updById]
          exact h.issue_keys
        · intro i hi
          rcases List.mem_map.1 hi with ⟨x, hx, rfl⟩
          by_cases hc : x.id = iss.id
          · have hxi : x = iss := eq_of_key_nodup h.issue_keys hx himem hc
            subst hxi
            simp only [beq_self_eq_true, if_pos]
            exact exists_key_updById (h.issue_book_ex x hx)
          · have hcc : ¬(Issue.id x == Issue.id iss) = true := by simpa using hc
            rw [if_neg hcc]
            exact exists_key_updById (h.issue_book_ex x hx)
        · intro z hz
          dsimp only at hz ⊢
          rcases List.mem_map.1 hz with ⟨x, hx, rfl⟩
          have hcount := countP_updById
            (fun i : Issue => i.book_id == Book.id x && i.return_date.isNone)
            himem (rfl : Issue.id { iss with return_date := some today } = Issue.id iss)
            h.issue_keys
          by_cases hc : x.id = b.id
          · have hxb : x = b := eq_of_key_nodup h.book_keys hx hbmem hc
            subst hxb
            simp only [beq_self_eq_true, if_pos]
            have hb1 := h.avail_bound x hx
            have hpx : (iss.book_id == Book.id x && iss.return_date.isNone) = true := by
              rw [hrd]
              simp [← hbid]
            have hpx' : (Issue.id { iss with return_date := some today } == Issue.id iss) = true := by
              simp
            simp only [hpx, if_pos] at hcount
            have hpy : ((({ iss with return_date := some today } : Issue).book_id
                == Book.id x) && ({ iss with return_date := some today } : Issue).return_date.isNone) = false := by
              simp
            simp only [hpy, if_neg, Bool.false_eq_true, ite_false] at hcount
            rw [outstanding] at hb1 ⊢
            omega
          · have hcc : ¬(Book.id x == Book.id b) = true := by simpa using hc
            rw [if_neg hcc]
            have hb1 := h.avail_bound x hx
            have hbk : ¬(iss.book_id = x.id) := by
              rw [← hbid]
              exact fun hb2 => hc hb2.symm
            have hpx : (iss.book_id == Book.id x && iss.return_date.isNone) = false := by
              simp [hbk]
            have hpy : ((({ iss with return_date := some today } : Issue).book_id
                == Book.id x) && ({ iss with return_date := some today } : Issue).return_date.isNone) = false := by
              simp [hbk]
            simp only [hpx, hpy, Bool.false_eq_true, ite_false] at hcount
            rw [outstanding] at hb1 ⊢
            omega

theorem wf_add_result (req : ExamResultIn) {s : Store} (h : WF s) :
    WF (add_result req s).2 :=
  ⟨h.student_lt, h.book_lt, h.issue_lt, h.book_keys, h.issue_keys, h.issue_book_ex,
    h.avail_bound, h.roster_nodup⟩

theorem wf_delete_result (result_id : Nat) {s : Store} (h : WF s) :
    WF (delete_result result_id s).2 := by
  unfold delete_result
  cases hf : findResult s result_id with
  | none => exact h
  | some r =>
    exact ⟨h.student_lt, h.book_lt, h.issue_lt, h.book_keys, h.issue_keys,
      h.issue_book_ex, h.avail_bound, h.roster_nodup⟩

theorem wf_add_fee (req : ExamFeeIn) {s : Store} (h : WF s) :
    WF (add_fee req s).2 :=
  ⟨h.student_lt, h.book_lt, h.issue_lt, h.book_keys, h.issue_keys, h.issue_book_ex,
    h.avail_bound, h.roster_nodup⟩

theorem wf_update_fee (fee_id : Nat) (p : FeePatch) {s : Store} (h : WF s) :
    WF (update_fee fee_id p s).2 := by
  unfold update_fee
  cases hf : findFee s fee_id with
  | none => exact h
  | some f =>
    exact ⟨h.student_lt, h.book_lt, h.issue_lt, h.book_keys, h.issue_keys,
      h.issue_book_ex, h.avail_bound, h.roster_nodup⟩

theorem wf_delete_fee (fee_id : Nat) {s : Store} (h : WF s) :
    WF (delete_fee fee_id s).2 := by
  unfold delete_fee
  cases hf : findFee s fee_id with
  | none => exact h
  | some f =>
    exact ⟨h.student_lt, h.book_lt, h.issue_lt, h.book_keys, h.issue_keys,
      h.issue_book_ex, h.avail_bound, h.roster_nodup⟩

/-- Every handler preserves the structural invariant. -/
theorem wf_step (o : Op) {s : Store} (h : WF s) : WF (o.step s) := by
  cases o with
  | createStudent req => exact wf_create_student req h
  | updateStudent i req => exact wf_update_student i req h
  | deleteStudent i => exact wf_delete_student i h
  | createStaff req => exact wf_create_staff req h
  | updateStaff i req => exact wf_update_staff i req h
  | deleteStaff i => exact wf_delete_staff i h
  | createClassroom req => exact wf_create_classroom req h
  | addStudentToClass c i => exact wf_add_student_to_class c i h
  | removeStudentFromClass c i => exact wf_remove_student_from_class c i h
  | addBook req => exact wf_add_book req h
  | issueBook req => exact wf_issue_book req h
  | returnBook i d => exact wf_return_book i d h
  | addResult req => exact wf_add_result req h
  | deleteResult i => exact wf_delete_result i h
  | addFee req => exact wf_add_fee req h
  | updateFee i p => exact wf_update_fee i p h
  | deleteFee i => exact wf_delete_fee i h

theorem wf_applySteps (ops : List Op) {s : Store} (h : WF s) : WF (applySteps ops s) := by
  induction ops generalizing s with
  | nil => exact h
  | cons o ops ih => exact ih (wf_step o h)

/-- Every reachable store satisfies the structural invariant. -/
theorem wf_reachable {s : Store} (h : Reachable s) : WF s := by
  obtain ⟨ops, rfl⟩ := h
  exact wf_applySteps ops wf_empty

-- ---------- NONNEGATIVE AVAILABILITY ----------

/-- All stored books have nonnegative `available_copies`. -/
def availNonneg (s : Store) : Prop :=
  ∀ b ∈ s.books, 0 ≤ b.available_copies

/-- Requests whose `add_book` body (if any) carries a nonnegative
`total_copies`; the source never validates this itself. -/
def Op.bookNonneg : Op → Prop
  | .addBook req => 0 ≤ req.total_copies
  | _ => True

/-- Stores reachable using only `add_book` requests with nonnegative
`total_copies`. -/
def ReachableNN (s : Store) : Prop :=
  ∃ ops : List Op, (∀ o ∈ ops, o.bookNonneg) ∧ applySteps ops emptyStore = s

theorem availNonneg_step (o : Op) {s : Store} (h : availNonneg s) (ho : o.bookNonneg) :
    availNonneg (o.step s) := by
  cases o with
  | createStudent req => exact h
  | updateStudent i req =>
    dsimp only [Op.step]; unfold update_student
    cases hf : findStudent s i with
    | none => exact h
    | some st => exact h
  | deleteStudent i =>
    dsimp only [Op.step]; unfold delete_student
    cases hf : findStudent s i with
    | none => exact h
    | some st =>
      dsimp only
      split
      · exact h
      · exact h
  | createStaff req => exact h
  | updateStaff i req =>
    dsimp only [Op.step]; unfold update_staff
    cases hf : findStaff s i with
    | none => exact h
    | some st => exact h
  | deleteStaff i =>
    dsimp only [Op.step]; unfold delete_staff
    cases hf : findStaff s i with
    | none => exact h
    | some st => exact h
  | createClassroom req => exact h
  | addStudentToClass c i =>
    dsimp only [Op.step]; unfold add_student_to_class
    cases hc : findClassroom s c with
    | none => exact h
    | some cl =>
      cases hst : findStudent s i with
      | none => exact h
      | some st =>
        dsimp only
        split
        · exact h
        · exact h
  | removeStudentFromClass c i =>
    dsimp only [Op.step]; unfold remove_student_from_class
    cases hc : findClassroom s c with
    | none => exact h
    | some cl =>
      cases hst : findStudent s i with
      | none => exact h
      | some st =>
        dsimp only
        split
        · exact h
        · exact h
  | addBook req =>
    dsimp only [Op.step]; unfold add_book
    dsimp only
    intro z hz
    rcases List.mem_append.1 hz with hz | hz
    · exact h z hz
    · rcases List.mem_singleton.1 hz with rfl
      exact ho
  | issueBook req =>
    dsimp only [Op.step]; unfold issue_book
    cases hfb : findBook s req.book_id with
    | none => exact h
    | some b =>
      dsimp only
      split
      · exact h
      · next hav =>
        intro z hz
        dsimp only at hz
        rcases List.mem_map.1 hz with ⟨x, hx, rfl⟩
        by_cases hc : (Book.id x == Book.id b) = true
        · rw [if_pos hc]
          dsimp only
          omega
        · rw [if_neg hc]
          exact h x hx
  | returnBook i d =>
    dsimp only [Op.step]; unfold return_book
    cases hfi : findIssue s i with
    | none => exact h
    | some iss =>
      dsimp only
      cases hrd : iss.return_date with
      | some dd => exact h
      | none =>
        dsimp only
        cases hfb : findBook s iss.book_id with
        | none => exact h
        | some b =>
          intro z hz
          dsimp only at hz
          rcases List.mem_map.1 hz with ⟨x, hx, rfl⟩
          by_cases hc : (Book.id x == Book.id b) = true
          · rw [if_pos hc]
            have hb0 := h b (findById_some hfb).1
            dsimp only
            omega
          · rw [if_neg hc]
            exact h x hx
  | addResult req => exact h
  | deleteResult i =>
    dsimp only [Op.step]; unfold delete_result
    cases hf : findResult s i with
    | none => exact h
    | some r => exact h
  | addFee req => exact h
  | updateFee i p =>
    dsimp only [Op.step]; unfold update_fee
    cases hf : findFee s i with
    | none => exact h
    | some f => exact h
  | deleteFee i =>
    dsimp only [Op.step]; unfold delete_fee
    cases hf : findFee s i with
    | none => exact h
    | some f => exact h

theorem availNonneg_applySteps (ops : List Op) {s : Store} (h : availNonneg s)
    (hops : ∀ o ∈ ops, o.bookNonneg) : availNonneg (applySteps ops s) := by
  induction ops generalizing s with
  | nil => exact h
  | cons o ops ih =>
    exact ih (availNonneg_step o h (hops o (by simp)))
      (fun o2 h2 => hops o2 (List.mem_cons_of_mem _ h2))

theorem availNonneg_reachableNN {s : Store} (h : ReachableNN s) : availNonneg s := by
  obtain ⟨ops, hops, rfl⟩ := h
  exact availNonneg_applySteps ops (by intro b hb; simp [emptyStore] at hb) hops

-- ---------- HANDLER CHARACTERIZATION LEMMAS ----------

theorem findById_eq_of_mem {α : Type} {key : α → Nat} {l : List α} {x : α} {i : Nat}
    (hnd : (l.map key).Nodup) (hx : x ∈ l) (hk : key x = i) :
    findById key i l = some x := by
  induction l with
  | nil => simp at hx
  | cons y t ih =>
    rw [List.map_cons, List.nodup_cons] at hnd
    rcases List.mem_cons.1 hx with rfl | hxt
    · exact findById_cons_pos hk
    · have hy : key y ≠ i := by
        intro hyi
        apply hnd.1
        rw [hyi, ← hk]
        exact List.mem_map_of_mem _ hxt
      rw [findById_cons_neg hy]
      exact ih hnd.2 hxt

/-- The committed path of `issue_book`, spelled out. -/
theorem issue_book_ok {s : Store} {req : IssueIn} {b : Book}
    (hb : findBook s req.book_id = some b) (hav : ¬ b.available_copies < 1) :
    issue_book req s =
      (Outcome.ok { id := s.next_issue_id, student_id := req.student_id,
                    book_id := req.book_id, issue_date := req.issue_date,
                    return_date := req.return_date },
       { s with
           books := updById Book.id
             { b with available_copies := b.available_copies - 1 } s.books,
           issues := s.issues ++
             [{ id := s.next_issue_id, student_id := req.student_id,
                book_id := req.book_id, issue_date := req.issue_date,
                return_date := req.return_date }],
           next_issue_id := s.next_issue_id + 1 }) := by
  unfold issue_book
  rw [hb]
  dsimp only
  rw [if_neg hav]

/-- The committed path of `return_book`, spelled out. -/
theorem return_book_ok {s : Store} {issue_id today : Nat} {iss : Issue} {b : Book}
    (hi : findIssue s issue_id = some iss) (hrd : iss.return_date = none)
    (hb : findBook s iss.book_id = some b) :
    return_book issue_id today s =
      (Outcome.ok { iss with return_date := some today },
       { s with
           issues := updById Issue.id { iss with return_date := some today } s.issues,
           books := updById Book.id
             { b with available_copies := b.available_copies + 1 } s.books }) := by
  unfold return_book
  rw [hi]
  dsimp only
  rw [hrd]
  dsimp only
  rw [hb]

/-- Lemma: `return_book` rejects an issue whose `return_date` is already set. -/
theorem return_book_rejected_some {s : Store} {issue_id today : Nat} {iss : Issue} {dd : Nat}
    (hi : findIssue s issue_id = some iss) (hrd : iss.return_date = some dd) :
    return_book issue_id today s = (Outcome.httpError 400 "Invalid return", s) := by
  unfold return_book
  rw [hi]
  dsimp only
  rw [hrd]

/-- Any non-2xx outcome of `issue_book` leaves the store untouched. -/
theorem issue_book_error_frame (req : IssueIn) (s : Store) :
    (issue_book req s).1.isOk = false → (issue_book req s).2 = s := by
  unfold issue_book
  cases hfb : findBook s req.book_id with
  | none => intro _; rfl
  | some b =>
    dsimp only
    split
    · intro _; rfl
    · intro hok
      simp [Outcome.isOk] at hok

/-- Any non-2xx outcome of `return_book` leaves the store untouched. -/
theorem return_book_error_frame (issue_id today : Nat) (s : Store) :
    (return_book issue_id today s).1.isOk = false → (return_book issue_id today s).2 = s := by
  unfold return_book
  cases hfi : findIssue s issue_id with
  | none => intro _; rfl
  | some iss =>
    dsimp only
    cases hrd : iss.return_date with
    | some dd => intro _; rfl
    | none =>
      dsimp only
      cases hfb : findBook s iss.book_id with
      | none => intro _; rfl
      | some b =>
        intro hok
        simp [Outcome.isOk] at hok

-- ---------- CONCRETE FIXTURES ----------

/-- A book request with a negative `total_copies` (nothing validates it). -/
def bkNeg : BookBase := { title := "t", author := "a", isbn := "i", total_copies := -1 }

/-- Store obtained by adding `bkNeg` to the fresh database. -/
def sNeg : Store := applySteps [Op.addBook bkNeg] emptyStore

/-- A normal two-copy book request. -/
def bkTwo : BookBase := { title := "b", author := "a", isbn := "n", total_copies := 2 }

/-- Store obtained by adding `bkTwo` to the fresh database. -/
def sTwo : Store := applySteps [Op.addBook bkTwo] emptyStore

/-- The row `add_book bkTwo` commits. -/
def bTwo : Book :=
  { id := 1, title := "b", author := "a", isbn := "n", total_copies := 2, available_copies := 2 }

/-- A zero-copy book request. -/
def bkZero : BookBase := { title := "z", author := "a", isbn := "n0", total_copies := 0 }

/-- Store obtained by adding `bkZero` to the fresh database. -/
def sZero : Store := applySteps [Op.addBook bkZero] emptyStore

/-- The row `add_book bkZero` commits. -/
def bZero : Book :=
  { id := 1, title := "z", author := "a", isbn := "n0", total_copies := 0, available_copies := 0 }

-- ---------- CLAIMS ----------

/-- C1, counterexample: the claimed invariant `0 ≤ available_copies` fails on a
reachable state.  `add_book` copies the caller-supplied `total_copies` into
`available_copies` without any validation, so posting a book with
`total_copies = -1` commits a book whose `available_copies` is negative. -/
theorem c1_counterexample :
    Reachable sNeg ∧ ∃ b ∈ sNeg.books, b.available_copies < 0 :=
  ⟨⟨[Op.addBook bkNeg], rfl⟩, by decide⟩

/-- C1, amended: in every reachable state each book satisfies
`available_copies ≤ total_copies`; and along request sequences in which every
`add_book` body has a nonnegative `total_copies` (the source never validates
this), each book also satisfies `0 ≤ available_copies`. -/
theorem c1_availability_invariant :
    (∀ s : Store, Reachable s → ∀ b ∈ s.books,
        b.available_copies ≤ b.total_copies)
    ∧ (∀ s : Store, ReachableNN s → ∀ b ∈ s.books,
        0 ≤ b.available_copies ∧ b.available_copies ≤ b.total_copies) := by
  constructor
  · intro s hs b hb
    have h := (wf_reachable hs).avail_bound b hb
    omega
  · intro s hs b hb
    have hnn := availNonneg_reachableNN hs b hb
    have hr : Reachable s := by
      obtain ⟨ops, _, h2⟩ := hs
      exact ⟨ops, h2⟩
    have h := (wf_reachable hr).avail_bound b hb
    exact ⟨hnn, by omega⟩

/-- C1 witness: instantiated on the store holding just `bkTwo`. -/
theorem c1_availability_invariant_witness :
    (bTwo.available_copies ≤ bTwo.total_copies) ∧ (0 ≤ bTwo.available_copies) :=
  ⟨c1_availability_invariant.1 sTwo ⟨[Op.addBook bkTwo], rfl⟩ bTwo (by decide),
   (c1_availability_invariant.2 sTwo
      ⟨[Op.addBook bkTwo], by
         refine ⟨?_, rfl⟩
         intro o ho
         rcases List.mem_singleton.1 ho with rfl
         exact (by decide : (0:Int) ≤ bkTwo.total_copies)⟩
      bTwo (by decide)).1⟩

/-- C2: issuing a book whose `available_copies` is 0 is rejected with a 400
and the store — in particular that book's row — is untouched; and in general
every rejected `issue_book` call returns the input store unchanged (the raise
happens before any mutation). -/
theorem c2_issue_unavailable_rejected (s : Store) (req : IssueIn) (b : Book)
    (hb : findBook s req.book_id = some b) (hz : b.available_copies = 0) :
    issue_book req s = (Outcome.httpError 400 "Book unavailable", s)
    ∧ (∀ req2 : IssueIn, (issue_book req2 s).1.isOk = false →
        (issue_book req2 s).2 = s) := by
  constructor
  · unfold issue_book
    rw [hb]
    dsimp only
    rw [if_pos (by omega : b.available_copies < 1)]
  · intro req2
    exact issue_book_error_frame req2 s

/-- C2 witness: the zero-copy book `bZero` in `sZero`. -/
theorem c2_issue_unavailable_rejected_witness :
    issue_book { student_id := 7, book_id := 1, issue_date := 5, return_date := none } sZero
      = (Outcome.httpError 400 "Book unavailable", sZero) :=
  (c2_issue_unavailable_rejected sZero
    { student_id := 7, book_id := 1, issue_date := 5, return_date := none }
    bZero rfl rfl).1

/-- The issue row committed by a successful `issue_book` call. -/
def newIssue (s : Store) (req : IssueIn) : Issue :=
  { id := s.next_issue_id, student_id := req.student_id, book_id := req.book_id,
    issue_date := req.issue_date, return_date := req.return_date }

/-- The store committed by a successful `issue_book` call (book `b` found). -/
def issuedStore (s : Store) (b : Book) (req : IssueIn) : Store :=
  { s with
      books := updById Book.id
        { b with available_copies := b.available_copies - 1 } s.books,
      issues := s.issues ++ [newIssue s req],
      next_issue_id := s.next_issue_id + 1 }

/-- The store committed by a successful `return_book` call on issue `iss` of
book `b`. -/
def returnedStore (s : Store) (iss : Issue) (b : Book) (today : Nat) : Store :=
  { s with
      issues := updById Issue.id { iss with return_date := some today } s.issues,
      books := updById Book.id
        { b with available_copies := b.available_copies + 1 } s.books }

/-- C3: in any reachable state where a book has at least one available copy,
issuing it (with the body's default null `return_date`) and then returning the
created issue restores the book row — in particular `available_copies` — to
its pre-issue value, and returning the same issue a second time is rejected. -/
theorem c3_issue_return_roundtrip (s : Store) (hr : Reachable s) (req : IssueIn)
    (b : Book) (hb : findBook s req.book_id = some b)
    (h1 : 1 ≤ b.available_copies) (hrd : req.return_date = none)
    (today today2 : Nat) :
    ∃ iss s1 s2,
      issue_book req s = (Outcome.ok iss, s1)
      ∧ return_book iss.id today s1
          = (Outcome.ok { iss with return_date := some today }, s2)
      ∧ findBook s2 req.book_id = some b
      ∧ return_book iss.id today2 s2 = (Outcome.httpError 400 "Invalid return", s2) := by
  have hwf := wf_reachable hr
  have hav : ¬ b.available_copies < 1 := by omega
  have e1 : issue_book req s = (Outcome.ok (newIssue s req), issuedStore s b req) :=
    issue_book_ok hb hav
  have hfresh : ∀ x ∈ s.issues, Issue.id x ≠ s.next_issue_id :=
    fun x hx => Nat.ne_of_lt (hwf.issue_lt x hx)
  have hfi1 : findIssue (issuedStore s b req) s.next_issue_id
      = some (newIssue s req) :=
    findById_append_new hfresh rfl
  have hfb1 : findBook (issuedStore s b req) req.book_id
      = some { b with available_copies := b.available_copies - 1 } :=
    findById_updById hb rfl
  have hrd0 : (newIssue s req).return_date = none := hrd
  have e2 : return_book (newIssue s req).id today (issuedStore s b req)
      = (Outcome.ok { newIssue s req with return_date := some today },
         returnedStore (issuedStore s b req) (newIssue s req)
           { b with available_copies := b.available_copies - 1 } today) :=
    return_book_ok hfi1 hrd0 hfb1
  have hfi2 : findIssue (returnedStore (issuedStore s b req) (newIssue s req)
        { b with available_copies := b.available_copies - 1 } today) s.next_issue_id
      = some { newIssue s req with return_date := some today } :=
    findById_updById hfi1 rfl
  have e3 : return_book (newIssue s req).id today2
      (returnedStore (issuedStore s b req) (newIssue s req)
        { b with available_copies := b.available_copies - 1 } today)
      = (Outcome.httpError 400 "Invalid return",
         returnedStore (issuedStore s b req) (newIssue s req)
           { b with available_copies := b.available_copies - 1 } today) :=
    return_book_rejected_some hfi2 rfl
  have hfb2 : findBook (returnedStore (issuedStore s b req) (newIssue s req)
        { b with available_copies := b.available_copies - 1 } today) req.book_id
      = some { b with available_copies := b.available_copies - 1 + 1 } :=
    findById_updById hfb1 rfl
  have hbb : ({ b with available_copies := b.available_copies - 1 + 1 } : Book) = b := by
    cases b
    simp only [Book.mk.injEq, eq_self_iff_true, true_and]
    omega
  exact ⟨_, _, _, e1, e2, hfb2.trans (congrArg some hbb), e3⟩

/-- C3 witness: the concrete two-copy store `sTwo`. -/
theorem c3_issue_return_roundtrip_witness :
    ∃ iss s1 s2,
      issue_book { student_id := 7, book_id := 1, issue_date := 10,
                   return_date := none } sTwo = (Outcome.ok iss, s1)
      ∧ return_book iss.id 11 s1
          = (Outcome.ok { iss with return_date := some 11 }, s2)
      ∧ findBook s2 1 = some bTwo
      ∧ return_book iss.id 12 s2 = (Outcome.httpError 400 "Invalid return", s2) :=
  c3_issue_return_roundtrip sTwo ⟨[Op.addBook bkTwo], rfl⟩
    { student_id := 7, book_id := 1, issue_date := 10, return_date := none }
    bTwo rfl (by decide) rfl 11 12

/-- C4: in any reachable state, `return_book` succeeds exactly when an issue
with the given id exists and its `return_date` is null; on success it sets
`return_date` to today and increments the referenced book's
`available_copies` by exactly 1; a nonexistent or already-returned issue is
rejected with the same 400 and nothing changes. -/
theorem c4_return_book_contract (s : Store) (hr : Reachable s) (issue_id today : Nat) :
    ((return_book issue_id today s).1.isOk = true ↔
      ∃ iss ∈ s.issues, iss.id = issue_id ∧ iss.return_date = none)
    ∧ (∀ iss, findIssue s issue_id = some iss → iss.return_date = none →
        ∃ b, findBook s iss.book_id = some b ∧
          return_book issue_id today s =
            (Outcome.ok { iss with return_date := some today },
             returnedStore s iss b today))
    ∧ (findIssue s issue_id = none →
        return_book issue_id today s = (Outcome.httpError 400 "Invalid return", s))
    ∧ (∀ iss dd, findIssue s issue_id = some iss → iss.return_date = some dd →
        return_book issue_id today s = (Outcome.httpError 400 "Invalid return", s)) := by
  have hwf := wf_reachable hr
  have hnone : findIssue s issue_id = none →
      return_book issue_id today s = (Outcome.httpError 400 "Invalid return", s) := by
    intro hfi
    unfold return_book
    rw [hfi]
  have hok_branch : ∀ iss, findIssue s issue_id = some iss → iss.return_date = none →
      ∃ b, findBook s iss.book_id = some b ∧
        return_book issue_id today s =
          (Outcome.ok { iss with return_date := some today },
           returnedStore s iss b today) := by
    intro iss hfi hrd
    obtain ⟨b0, hb0, hb0id⟩ := hwf.issue_book_ex iss (findById_some hfi).1
    have hfb : findBook s iss.book_id = some b0 :=
      findById_eq_of_mem hwf.book_keys hb0 hb0id
    exact ⟨b0, hfb, return_book_ok hfi hrd hfb⟩
  refine ⟨?_, hok_branch, hnone,
    fun iss dd hfi hrd => return_book_rejected_some hfi hrd⟩
  constructor
  · intro hok
    cases hfi : findIssue s issue_id with
    | none =>
      rw [hnone hfi] at hok
      simp [Outcome.isOk] at hok
    | some iss =>
      cases hrd : iss.return_date with
      | some dd =>
        rw [return_book_rejected_some hfi hrd] at hok
        simp [Outcome.isOk] at hok
      | none =>
        exact ⟨iss, (findById_some hfi).1, (findById_some hfi).2, hrd⟩
  · rintro ⟨iss, hmem, hid, hrd⟩
    have hfi : findIssue s issue_id = some iss :=
      findById_eq_of_mem hwf.issue_keys hmem hid
    obtain ⟨b0, hfb, heq⟩ := hok_branch iss hfi hrd
    rw [heq]
    rfl

/-- Store with one two-copy book and one outstanding issue of it. -/
def sIssued : Store :=
  applySteps [Op.addBook bkTwo,
    Op.issueBook { student_id := 7, book_id := 1, issue_date := 10,
                   return_date := none }] emptyStore

/-- C4 witness: the outstanding issue in `sIssued` can be returned. -/
theorem c4_return_book_contract_witness :
    (return_book 1 11 sIssued).1.isOk = true :=
  ((c4_return_book_contract sIssued
      ⟨[Op.addBook bkTwo,
        Op.issueBook { student_id := 7, book_id := 1, issue_date := 10,
                       return_date := none }], rfl⟩ 1 11).1).mpr (by decide)

theorem add_student_404 (s : Store) (cid sid : Nat)
    (h : findClassroom s cid = none ∨ findStudent s sid = none) :
    add_student_to_class cid sid s
      = (Outcome.httpError 404 "Class or Student not found", s) := by
  unfold add_student_to_class
  rcases h with hc | hst
  · rw [hc]
  · cases hc2 : findClassroom s cid with
    | none => rfl
    | some c => rw [hst]

theorem remove_student_404 (s : Store) (cid sid : Nat)
    (h : findClassroom s cid = none ∨ findStudent s sid = none) :
    remove_student_from_class cid sid s
      = (Outcome.httpError 404 "Class or Student not found", s) := by
  unfold remove_student_from_class
  rcases h with hc | hst
  · rw [hc]
  · cases hc2 : findClassroom s cid with
    | none => rfl
    | some c => rw [hst]

/-- C5, counterexample: `add_result` with a `student_id` that matches no
student is NOT rejected with a not-found — it succeeds and commits the row
(the handler performs no existence check and SQLite does not enforce the
foreign key). -/
theorem c5_counterexample :
    findStudent emptyStore 1 = none
    ∧ (add_result { student_id := 1, exam_name := "m",
                    marks_obtained := 50, max_marks := 100 } emptyStore).1.isOk = true
    ∧ (add_result { student_id := 1, exam_name := "m",
                    marks_obtained := 50, max_marks := 100 } emptyStore).2.results
      = [{ id := 1, student_id := 1, exam_name := "m", marks_obtained := 50,
           max_marks := 100 }] :=
  ⟨rfl, rfl, rfl⟩

/-- C5, amended: the roster handlers do check both foreign keys and reject
with a 404 before any mutation, and `issue_book` rejects a missing book (with
a 400, before any mutation); but `issue_book` never checks `student_id`, and
`add_result` / `add_fee` check nothing at all — they commit the row for any
`student_id` whatsoever. -/
theorem c5_fk_checks (s : Store) :
    (∀ req : IssueIn, findBook s req.book_id = none →
        issue_book req s = (Outcome.httpError 400 "Book unavailable", s))
    ∧ (∀ cid sid : Nat, (findClassroom s cid = none ∨ findStudent s sid = none) →
        add_student_to_class cid sid s
          = (Outcome.httpError 404 "Class or Student not found", s)
        ∧ remove_student_from_class cid sid s
          = (Outcome.httpError 404 "Class or Student not found", s))
    ∧ (∀ req : ExamResultIn, (add_result req s).1.isOk = true
        ∧ (add_result req s).2.results = s.results ++
            [{ id := s.next_result_id, student_id := req.student_id,
               exam_name := req.exam_name, marks_obtained := req.marks_obtained,
               max_marks := req.max_marks }])
    ∧ (∀ req : ExamFeeIn, (add_fee req s).1.isOk = true
        ∧ (add_fee req s).2.fees = s.fees ++
            [{ id := s.next_fee_id, student_id := req.student_id,
               amount := req.amount, due_date := req.due_date,
               paid := req.paid }])
    ∧ (∀ req : IssueIn, ∀ b : Book, findBook s req.book_id = some b →
        ¬ b.available_copies < 1 → (issue_book req s).1.isOk = true) := by
  refine ⟨?_, ?_, ?_, ?_, ?_⟩
  · intro req hb
    unfold issue_book
    rw [hb]
  · intro cid sid h
    exact ⟨add_student_404 s cid sid h, remove_student_404 s cid sid h⟩
  · intro req
    exact ⟨rfl, rfl⟩
  · intro req
    exact ⟨rfl, rfl⟩
  · intro req b hb hav
    rw [issue_book_ok hb hav]
    rfl

/-- C5 witness: concrete instances of the amended statement. -/
theorem c5_fk_checks_witness :
    add_student_to_class 1 1 emptyStore
      = (Outcome.httpError 404 "Class or Student not found", emptyStore)
    ∧ (add_fee { student_id := 5, amount := 100, due_date := 20,
                 paid := false } emptyStore).1.isOk = true :=
  ⟨((c5_fk_checks emptyStore).2.1 1 1 (Or.inl rfl)).1,
   ((c5_fk_checks emptyStore).2.2.2.1
      { student_id := 5, amount := 100, due_date := 20, paid := false }).1⟩

/-- C6: on the roster handlers the 404 existence check fires first (it does
not look at the membership); with both rows present, a duplicate enrolment is
rejected with a 400 and the roster is untouched, unenrolling a non-member is
rejected with a 400, and otherwise the pairing is appended or erased; and in
every reachable state the join table has no duplicate pairing. -/
theorem c6_roster_contract (s : Store) (hr : Reachable s) (cid sid : Nat) :
    ((findClassroom s cid = none ∨ findStudent s sid = none) →
        add_student_to_class cid sid s
          = (Outcome.httpError 404 "Class or Student not found", s)
        ∧ remove_student_from_class cid sid s
          = (Outcome.httpError 404 "Class or Student not found", s))
    ∧ (∀ c, findClassroom s cid = some c → ∀ st, findStudent s sid = some st →
        ((cid, sid) ∈ s.roster →
            add_student_to_class cid sid s
              = (Outcome.httpError 400 "Student already in class", s)
            ∧ remove_student_from_class cid sid s
              = (Outcome.ok c, { s with roster := s.roster.erase (cid, sid) }))
        ∧ ((cid, sid) ∉ s.roster →
            add_student_to_class cid sid s
              = (Outcome.ok c, { s with roster := s.roster ++ [(cid, sid)] })
            ∧ remove_student_from_class cid sid s
              = (Outcome.httpError 400 "Student not in class", s)))
    ∧ s.roster.Nodup := by
  have hwf := wf_reachable hr
  refine ⟨?_, ?_, hwf.roster_nodup⟩
  · intro h
    exact ⟨add_student_404 s cid sid h, remove_student_404 s cid sid h⟩
  · intro c hc st hst
    constructor
    · intro hmem
      constructor
      · unfold add_student_to_class
        rw [hc, hst]
        dsimp only
        rw [if_pos hmem]
      · unfold remove_student_from_class
        rw [hc, hst]
        dsimp only
        rw [if_pos hmem]
    · intro hmem
      constructor
      · unfold add_student_to_class
        rw [hc, hst]
        dsimp only
        rw [if_neg hmem]
      · unfold remove_student_from_class
        rw [hc, hst]
        dsimp only
        rw [if_neg hmem]

/-- Classroom create request used in witnesses. -/
def crReq : ClassroomBase :=
  { class_name := "c1", std := "5", sec := "A", class_teacher := "T" }

/-- Student create request used in witnesses. -/
def stReq : StudentBase := { name := "S", contact_number := "99", dob := 1000 }

/-- Store with one classroom and one student, empty roster. -/
def sCS : Store :=
  applySteps [Op.createClassroom crReq, Op.createStudent stReq] emptyStore

/-- The classroom row committed by `create_classroom crReq`. -/
def cOne : Classroom :=
  { id := 1, class_name := "c1", std := "5", sec := "A", class_teacher := "T" }

/-- The student row committed by `create_student stReq`. -/
def stOne : Student := { id := 1, name := "S", contact_number := "99", dob := 1000 }

/-- C6 witness: enrolling the student of `sCS` into its classroom appends the
pairing. -/
theorem c6_roster_contract_witness :
    add_student_to_class 1 1 sCS
      = (Outcome.ok cOne, { sCS with roster := sCS.roster ++ [(1, 1)] }) :=
  ((((c6_roster_contract sCS
        ⟨[Op.createClassroom crReq, Op.createStudent stReq], rfl⟩ 1 1).2.1
      cOne rfl stOne rfl).2) (by decide)).1

/-- C7: `update_fee` on an existing fee is a partial merge: the committed row
keeps the primary key, takes each supplied field from the patch, and keeps
each absent field unchanged — in particular a patch supplying only `paid`
leaves `amount` and `due_date` (and `student_id`) untouched. -/
theorem c7_update_fee_merge (s : Store) (fee_id : Nat) (p : FeePatch) (f : ExamFee)
    (hf : findFee s fee_id = some f) :
    update_fee fee_id p s = (Outcome.ok (applyFeePatch f p),
        { s with fees := updById ExamFee.id (applyFeePatch f p) s.fees })
    ∧ findFee (update_fee fee_id p s).2 fee_id = some (applyFeePatch f p)
    ∧ (applyFeePatch f p).id = f.id
    ∧ (p.amount = none → (applyFeePatch f p).amount = f.amount)
    ∧ (p.due_date = none → (applyFeePatch f p).due_date = f.due_date)
    ∧ (p.student_id = none → (applyFeePatch f p).student_id = f.student_id)
    ∧ (p.paid = none → (applyFeePatch f p).paid = f.paid)
    ∧ (∀ pd, p.paid = some pd → (applyFeePatch f p).paid = pd) := by
  have e : update_fee fee_id p s = (Outcome.ok (applyFeePatch f p),
      { s with fees := updById ExamFee.id (applyFeePatch f p) s.fees }) := by
    unfold update_fee
    rw [hf]
  refine ⟨e, ?_, rfl, ?_, ?_, ?_, ?_, ?_⟩
  · rw [e]
    exact findById_updById hf rfl
  · intro h
    simp [applyFeePatch, h]
  · intro h
    simp [applyFeePatch, h]
  · intro h
    simp [applyFeePatch, h]
  · intro h
    simp [applyFeePatch, h]
  · intro pd h
    simp [applyFeePatch, h]

/-- Fee create request used in witnesses. -/
def feeReq : ExamFeeIn :=
  { student_id := 3, amount := 100, due_date := 20, paid := false }

/-- Store with one unpaid fee. -/
def sFee : Store := applySteps [Op.addFee feeReq] emptyStore

/-- The fee row committed by `add_fee feeReq`. -/
def feeOne : ExamFee :=
  { id := 1, student_id := 3, amount := 100, due_date := 20, paid := false }

/-- A patch supplying only `paid`. -/
def pPaid : FeePatch :=
  { student_id := none, amount := none, due_date := none, paid := some true }

/-- C7 witness: patching only `paid` on `feeOne` keeps amount and due date. -/
theorem c7_update_fee_merge_witness :
    (applyFeePatch feeOne pPaid).amount = feeOne.amount
    ∧ (applyFeePatch feeOne pPaid).due_date = feeOne.due_date
    ∧ (applyFeePatch feeOne pPaid).paid = true :=
  ⟨(c7_update_fee_merge sFee 1 pPaid feeOne rfl).2.2.2.1 rfl,
   (c7_update_fee_merge sFee 1 pPaid feeOne rfl).2.2.2.2.1 rfl,
   (c7_update_fee_merge sFee 1 pPaid feeOne rfl).2.2.2.2.2.2.2 true rfl⟩

/-- C8: in any reachable state, `create_student` commits a row carrying the
store-assigned identifier, and a subsequent `get_student` with that identifier
in the resulting state returns a record with exactly the created field
values. -/
theorem c8_create_then_get (s : Store) (hr : Reachable s) (req : StudentBase) :
    ∃ st s', create_student req s = (Outcome.ok st, s')
      ∧ get_student st.id s' = Outcome.ok st
      ∧ st.name = req.name ∧ st.contact_number = req.contact_number
      ∧ st.dob = req.dob := by
  have hwf := wf_reachable hr
  refine ⟨{ id := s.next_student_id, name := req.name,
            contact_number := req.contact_number, dob := req.dob },
    _, rfl, ?_, rfl, rfl, rfl⟩
  unfold get_student
  dsimp only
  have hfind : findStudent
      { s with
          students := s.students ++
            [{ id := s.next_student_id, name := req.name,
               contact_number := req.contact_number, dob := req.dob }],
          next_student_id := s.next_student_id + 1 } s.next_student_id
      = some { id := s.next_student_id, name := req.name,
               contact_number := req.contact_number, dob := req.dob } :=
    findById_append_new (fun x hx => Nat.ne_of_lt (hwf.student_lt x hx)) rfl
  rw [hfind]

/-- C8 witness: creating `stReq` in the fresh database. -/
theorem c8_create_then_get_witness :
    ∃ st s', create_student stReq emptyStore = (Outcome.ok st, s')
      ∧ get_student st.id s' = Outcome.ok st
      ∧ st.name = stReq.name ∧ st.contact_number = stReq.contact_number
      ∧ st.dob = stReq.dob :=
  c8_create_then_get emptyStore ⟨[], rfl⟩ stReq

/-- C9: `issue_book` persists the caller-supplied `return_date` verbatim; an
issue posted with a non-null `return_date` against an available book still
decrements `available_copies`, and `return_book` immediately rejects the
created issue as already returned, so that copy cannot be restored through
the return endpoint. -/
theorem c9_preset_return_date_leak (s : Store) (hr : Reachable s) (req : IssueIn)
    (b : Book) (hb : findBook s req.book_id = some b)
    (h1 : 1 ≤ b.available_copies) (rd : Nat) (hrd : req.return_date = some rd)
    (today : Nat) :
    issue_book req s = (Outcome.ok (newIssue s req), issuedStore s b req)
    ∧ (newIssue s req).return_date = some rd
    ∧ findBook (issuedStore s b req) req.book_id
        = some { b with available_copies := b.available_copies - 1 }
    ∧ return_book (newIssue s req).id today (issuedStore s b req)
        = (Outcome.httpError 400 "Invalid return", issuedStore s b req) := by
  have hwf := wf_reachable hr
  have hav : ¬ b.available_copies < 1 := by omega
  have e1 : issue_book req s = (Outcome.ok (newIssue s req), issuedStore s b req) :=
    issue_book_ok hb hav
  have hfi1 : findIssue (issuedStore s b req) s.next_issue_id
      = some (newIssue s req) :=
    findById_append_new (fun x hx => Nat.ne_of_lt (hwf.issue_lt x hx)) rfl
  exact ⟨e1, hrd, findById_updById hb rfl, return_book_rejected_some hfi1 hrd⟩

/-- An issue request arriving with a non-null `return_date`. -/
def reqPre : IssueIn :=
  { student_id := 7, book_id := 1, issue_date := 10, return_date := some 9 }

/-- C9 witness: a pre-returned issue against `sTwo`. -/
theorem c9_preset_return_date_leak_witness :
    return_book (newIssue sTwo reqPre).id 11 (issuedStore sTwo bTwo reqPre)
    = (Outcome.httpError 400 "Invalid return", issuedStore sTwo bTwo reqPre) :=
  (c9_preset_return_date_leak sTwo ⟨[Op.addBook bkTwo], rfl⟩ reqPre
    bTwo rfl (by decide) 9 rfl 11).2.2.2

/-- C10: in every reachable state each stored issue references a stored book
(no endpoint ever deletes a book), so the unguarded book lookup in
`return_book` can never hit `None`: the crash branch is unreachable. -/
theorem c10_return_book_book_access_safe (s : Store) (hr : Reachable s) :
    (∀ i ∈ s.issues, ∃ b ∈ s.books, b.id = i.book_id)
    ∧ (∀ issue_id today : Nat, (return_book issue_id today s).1 ≠ Outcome.crash) := by
  have hwf := wf_reachable hr
  refine ⟨hwf.issue_book_ex, ?_⟩
  intro issue_id today
  unfold return_book
  cases hfi : findIssue s issue_id with
  | none => exact fun h => Outcome.noConfusion h
  | some iss =>
    dsimp only
    cases hrd : iss.return_date with
    | some dd => exact fun h => Outcome.noConfusion h
    | none =>
      dsimp only
      obtain ⟨b0, hb0, hb0id⟩ := hwf.issue_book_ex iss (findById_some hfi).1
      have hfb : findBook s iss.book_id = some b0 :=
        findById_eq_of_mem hwf.book_keys hb0 hb0id
      rw [hfb]
      exact fun h => Outcome.noConfusion h

/-- C10 witness: the fresh database. -/
theorem c10_return_book_book_access_safe_witness :
    (return_book 1 5 emptyStore).1 ≠ Outcome.crash :=
  (c10_return_book_book_access_safe emptyStore ⟨[], rfl⟩).2 1 5
